import Mathlib

/-!
Shallow embedding of the wallet-api authentication core
(`app/services/auth_service.py`, `app/core/security.py`,
`app/services/user_service.py`, `app/models/token.py`, `app/models/user.py`)
and proofs about its refresh-token lifecycle.

Modelling conventions:
- Python `datetime` values are modelled by `Dt`: a wall-clock reading in
  seconds together with an optional timezone offset (`none` = naive).
- The database session is modelled by explicit state passing over `DB`;
  `session.add` + `session.commit` on an existing ORM row is `DB.save_token`
  (replace-by-primary-key), on a fresh row it is a list append.
- `HTTPException` and the pwdlib `UnknownHashError` are modelled with
  `Except`; nondeterministic inputs of an operation (current time, freshly
  generated token strings, freshly drawn primary keys) are explicit
  parameters.
- `jwt.encode` is modelled by its payload `{sub, exp}` (a signed token
  string determines its payload).
-/

namespace WalletApi

/-- Python `datetime`: wall-clock seconds plus optional utcoffset in seconds
(`tz = none` models a naive datetime, `tz = some 0` a UTC-aware one). -/
structure Dt where
  wall : Int
  tz : Option Int
deriving Repr, DecidableEq

/-- The instant denoted by a datetime (naive values read under the UTC
convention): `wall - utcoffset`. Aware comparison in Python compares these. -/
def Dt.instant (d : Dt) : Int := d.wall - d.tz.getD 0

/-- `datetime.now(timezone.utc)` when the current instant is `t`. -/
def Dt.utc (t : Int) : Dt := ⟨t, some 0⟩

/-- `d.replace(tzinfo=timezone.utc)`: same wall-clock fields, tagged UTC. -/
def Dt.replaceUtc (d : Dt) : Dt := { d with tz := some 0 }

/-- `app/models/token.py` `RefreshToken` (ids as `Nat` in place of UUID). -/
structure RefreshToken where
  id : Nat
  user_id : Nat
  token : String
  created_at : Dt
  expires_at : Dt
  last_used_at : Option Dt
  revoked : Bool
  revoked_at : Option Dt
deriving Repr, DecidableEq

/-- `app/models/user.py` `User` (fields the auth core reads). -/
structure User where
  id : Nat
  email : String
  hashed_password : String
  is_active : Bool
  is_superuser : Bool
deriving Repr, DecidableEq

/-- The persistent store reachable through a session. -/
structure DB where
  users : List User
  tokens : List RefreshToken
deriving Repr, DecidableEq

/-- `session.add(r); session.commit()` for an ORM row already in the store:
replace the row whose primary key equals `r.id` by `r`. -/
def DB.save_token (db : DB) (r : RefreshToken) : DB :=
  { db with tokens := db.tokens.map (fun x => if x.id == r.id then r else x) }

/-- Primary-key uniqueness of the refresh-token table. -/
def DB.uniqueIds (db : DB) : Prop :=
  db.tokens.Pairwise (fun a b => a.id ≠ b.id)

/-- The unique index on `RefreshToken.token`. -/
def DB.uniqueTokens (db : DB) : Prop :=
  db.tokens.Pairwise (fun a b => a.token ≠ b.token)

/-- Error values surfaced by the service layer: FastAPI `HTTPException`
and the pwdlib `UnknownHashError` (which the service does not catch). -/
inductive Err where
  | httpException (status : Nat) (detail : String)
  | unknownHashError
deriving Repr, DecidableEq

deriving instance DecidableEq for Except

/-- `app/core/config.py` `Settings` defaults used by the auth core. -/
structure Settings where
  ACCESS_TOKEN_EXPIRE_MINUTES : Int
  REFRESH_TOKEN_EXPIRE_DAYS : Int
deriving Repr, DecidableEq

def settings : Settings :=
  { ACCESS_TOKEN_EXPIRE_MINUTES := 30, REFRESH_TOKEN_EXPIRE_DAYS := 7 }

/-- `get_password_hash` (`app/core/security.py`): argon2 hash of a password,
modelled as an injective argon2-tagged encoding (salt abstracted away). -/
def get_password_hash (password : String) : String :=
  "$argon2id$" ++ password

/-- `Argon2Hasher.identify` of pwdlib: a hash string is recognized by the
argon2 hasher exactly when it carries the `$argon2` format tag. -/
def argon2_identify (hashed : String) : Bool :=
  hashed.data.take 7 == "$argon2".data

/-- Modelled from the documented contract of the external `pwdlib` dependency
(`PasswordHash.recommended().verify`): each registered hasher is asked to
identify the hash (argon2 identifies by its `$argon2` format tag) and the
identifying hasher verifies; when no hasher identifies the hash,
`UnknownHashError` is raised. -/
def pwdlib_verify (plain hashed : String) : Except Err Bool :=
  if argon2_identify hashed then
    .ok (hashed == get_password_hash plain)
  else
    .error .unknownHashError

/-- `verify_password` (`app/core/security.py`): delegates to pwdlib. -/
def verify_password (plain_password hashed_password : String) : Except Err Bool :=
  pwdlib_verify plain_password hashed_password

/-- A decoded JWT payload `{sub, exp}`; stands for the signed string. -/
structure Jwt where
  sub : Nat
  exp : Int
deriving Repr, DecidableEq

/-- `security.create_access_token` (`app/core/security.py`): payload
`{sub = subject, exp = now + ACCESS_TOKEN_EXPIRE_MINUTES}`. -/
def security_create_access_token (subject : Nat) (now : Int) : Jwt :=
  { sub := subject, exp := now + settings.ACCESS_TOKEN_EXPIRE_MINUTES * 60 }

/-- `create_access_token` (`app/services/auth_service.py`). -/
def create_access_token (user_id : Nat) (now : Int) : Jwt :=
  security_create_access_token user_id now

/-- `app/schemas/auth.py` `Token` response. -/
structure Token where
  access_token : Jwt
  refresh_token : String
deriving Repr, DecidableEq

/-- `app/schemas/auth.py` `SignupRequest` (profile field not read by the core). -/
structure SignupRequest where
  email : String
  password : String
deriving Repr, DecidableEq

/-- `get_user_by_email` (`app/services/user_service.py`). -/
def get_user_by_email (db : DB) (email : String) : Option User :=
  db.users.find? (fun u => u.email == email)

/-- `authenticate` (`app/services/auth_service.py`): `none` both when the
email is unknown and when the password fails verification. -/
def authenticate (db : DB) (email password : String) : Except Err (Option User) :=
  match get_user_by_email db email with
  | none => .ok none
  | some user =>
    match verify_password password user.hashed_password with
    | .error e => .error e
    | .ok false => .ok none
    | .ok true => .ok (some user)

/-- `create_refresh_token_record` (`app/services/auth_service.py`).
The raw token string produced by `security.create_refresh_token` and the
fresh primary key drawn by `uuid4` are explicit parameters. -/
def create_refresh_token_record (db : DB) (now : Int) (user_id : Nat)
    (rawToken : String) (newId : Nat) : RefreshToken × DB :=
  let expires_at := Dt.utc (now + settings.REFRESH_TOKEN_EXPIRE_DAYS * 86400)
  let record : RefreshToken :=
    { id := newId, user_id := user_id, token := rawToken,
      created_at := Dt.utc now, expires_at := expires_at,
      last_used_at := none, revoked := false, revoked_at := none }
  (record, { db with tokens := db.tokens ++ [record] })

/-- `login` (`app/services/auth_service.py`). -/
def login (db : DB) (now : Int) (email password : String)
    (rawToken : String) (newId : Nat) : Except Err (Token × DB) :=
  match authenticate db email password with
  | .error e => .error e
  | .ok none => .error (.httpException 400 "Incorrect email or password")
  | .ok (some user) =>
    if user.is_active then
      let access := create_access_token user.id now
      let issued := create_refresh_token_record db now user.id rawToken newId
      .ok ({ access_token := access, refresh_token := issued.1.token }, issued.2)
    else
      .error (.httpException 400 "Inactive user")

/-- `create` (`app/services/user_service.py`): re-checks email uniqueness,
hashes the password, persists the user (defaults: active, not superuser). -/
def user_service_create (db : DB) (email password : String) (newUserId : Nat) :
    Except Err (User × DB) :=
  match get_user_by_email db email with
  | some _ => .error (.httpException 409 "Email is already registered")
  | none =>
    let user : User :=
      { id := newUserId, email := email,
        hashed_password := get_password_hash password,
        is_active := true, is_superuser := false }
    .ok (user, { db with users := db.users ++ [user] })

/-- `signup` (`app/services/auth_service.py`). -/
def signup (db : DB) (payload : SignupRequest) (newUserId : Nat) :
    Except Err (User × DB) :=
  match get_user_by_email db payload.email with
  | some _ => .error (.httpException 400 "A user with this email already exists.")
  | none => user_service_create db payload.email payload.password newUserId

/-- The naive-timestamp normalization inside `validate_refresh_token`
(`app/services/auth_service.py` lines 176-178): a naive `expires_at` is
re-tagged as UTC, an aware one is left alone. -/
def normalize_expires (d : Dt) : Dt :=
  if d.tz.isNone then d.replaceUtc else d

/-- `validate_refresh_token` (`app/services/auth_service.py`): lookup by
token string, revocation check, naive-expiry normalization (an in-session
mutation of the record), strict expiry comparison against `now`. -/
def validate_refresh_token (db : DB) (now : Int) (token : String) :
    Option RefreshToken × DB :=
  match db.tokens.find? (fun r => r.token == token) with
  | none => (none, db)
  | some record =>
    if record.revoked then (none, db)
    else
      let record := { record with expires_at := normalize_expires record.expires_at }
      let db := db.save_token record
      if record.expires_at.instant < now then (none, db)
      else (some record, db)

/-- `revoke_refresh_token` (`app/services/auth_service.py`): sets `revoked`
and stamps `revoked_at` with the current time, then persists. Returns the
mutated record alongside the store. -/
def revoke_refresh_token (db : DB) (now : Int) (token_record : RefreshToken) :
    RefreshToken × DB :=
  let record := { token_record with revoked := true, revoked_at := some (Dt.utc now) }
  (record, db.save_token record)

/-- `refresh` (`app/services/auth_service.py`): validate, touch
`last_used_at`, issue a new access token, return it with the same
refresh-token string. -/
def refresh (db : DB) (now : Int) (refresh_token : String) : Except Err (Token × DB) :=
  match validate_refresh_token db now refresh_token with
  | (none, _) => .error (.httpException 401 "Invalid or expired refresh token")
  | (some record, db1) =>
    let record := { record with last_used_at := some (Dt.utc now) }
    let db2 := db1.save_token record
    let new_access := create_access_token record.user_id now
    .ok ({ access_token := new_access, refresh_token := record.token }, db2)

/-- `logout` (`app/services/auth_service.py`): validate then revoke. -/
def logout (db : DB) (now : Int) (refresh_token : String) : Except Err DB :=
  match validate_refresh_token db now refresh_token with
  | (none, _) => .error (.httpException 401 "Invalid refresh token")
  | (some record, db1) => .ok (revoke_refresh_token db1 now record).2

/-! Concrete sample data reused by witnesses and counterexamples. -/

/-- A live refresh-token record expiring at instant 100. -/
def sampleRec : RefreshToken :=
  { id := 1, user_id := 7, token := "t", created_at := Dt.utc 0,
    expires_at := Dt.utc 100, last_used_at := none,
    revoked := false, revoked_at := none }

/-- A store holding only `sampleRec`. -/
def sampleDB : DB := { users := [], tokens := [sampleRec] }

/-! Basic lemmas about the embedded operations. -/

/-- Re-tagging a naive timestamp as UTC does not move the instant it denotes
(naive values are read under the UTC convention). -/
theorem normalize_instant (d : Dt) :
    (normalize_expires d).instant = d.instant := by
  unfold normalize_expires Dt.replaceUtc Dt.instant
  cases h : d.tz <;> simp [h]

theorem normalize_token_eq (r : RefreshToken) :
    ({ r with expires_at := normalize_expires r.expires_at } : RefreshToken).token
      = r.token := rfl

/-- Elimination form for a successful validation: the exact shape
`validate_refresh_token` gives its result. -/
theorem validate_eq_some {db : DB} {now : Int} {tok : String}
    {record : RefreshToken} {db1 : DB}
    (h : validate_refresh_token db now tok = (some record, db1)) :
    ∃ f0, db.tokens.find? (fun x => x.token == tok) = some f0 ∧
      f0.revoked = false ∧
      record = { f0 with expires_at := normalize_expires f0.expires_at } ∧
      ¬(record.expires_at.instant < now) ∧
      db1 = db.save_token record := by
  unfold validate_refresh_token at h
  split at h
  · simp at h
  · rename_i f0 hf
    dsimp only at h
    by_cases hr : f0.revoked = true
    · rw [if_pos hr] at h; simp at h
    · rw [if_neg hr] at h
      by_cases he : ({ f0 with expires_at := normalize_expires f0.expires_at }
          : RefreshToken).expires_at.instant < now
      · rw [if_pos he] at h; simp at h
      · rw [if_neg he] at h
        have h1 := congrArg Prod.fst h
        have h2 := congrArg Prod.snd h
        simp only at h1 h2
        have hrr : ({ f0 with expires_at := normalize_expires f0.expires_at }
            : RefreshToken) = record := Option.some.inj h1
        refine ⟨f0, hf, by simpa using hr, hrr.symm, ?_, ?_⟩
        · rw [← hrr]; exact he
        · rw [← hrr]; exact h2.symm

/-- The validated record keeps the token string it was looked up by. -/
theorem validate_some_token {db : DB} {now : Int} {tok : String}
    {record : RefreshToken} {db1 : DB}
    (h : validate_refresh_token db now tok = (some record, db1)) :
    record.token = tok := by
  obtain ⟨f0, hf, -, hrec, -, -⟩ := validate_eq_some h
  have := List.find?_some hf
  simp only [beq_iff_eq] at this
  rw [hrec, normalize_token_eq, this]

/-- If the looked-up record is revoked, validation rejects. -/
theorem validate_none_of_revoked {db : DB} (now : Int) {tok : String}
    {r : RefreshToken}
    (hf : db.tokens.find? (fun x => x.token == tok) = some r)
    (hr : r.revoked = true) :
    (validate_refresh_token db now tok).1 = none := by
  unfold validate_refresh_token
  rw [hf]
  simp [hr]

/-- Successful-validation introduction form: an unrevoked, unexpired record
found under the token string is returned (with its expiry normalized). -/
theorem validate_some_of {db : DB} (now : Int) {tok : String} {r : RefreshToken}
    (hf : db.tokens.find? (fun x => x.token == tok) = some r)
    (hr : r.revoked = false)
    (he : ¬(r.expires_at.instant < now)) :
    (validate_refresh_token db now tok).1 =
      some { r with expires_at := normalize_expires r.expires_at } := by
  unfold validate_refresh_token
  rw [hf]
  dsimp only
  rw [if_neg (by simp [hr])]
  have hinst : ({ r with expires_at := normalize_expires r.expires_at }
      : RefreshToken).expires_at.instant = r.expires_at.instant :=
    normalize_instant r.expires_at
  rw [if_neg (by rw [hinst]; exact he)]

/-- Rejection cases of validation, as an exact characterization. -/
theorem validate_none_iff (db : DB) (now : Int) (tok : String) :
    (validate_refresh_token db now tok).1 = none ↔
      db.tokens.find? (fun x => x.token == tok) = none ∨
      ∃ r, db.tokens.find? (fun x => x.token == tok) = some r ∧
        (r.revoked = true ∨ r.expires_at.instant < now) := by
  constructor
  · intro h
    cases hf : db.tokens.find? (fun x => x.token == tok) with
    | none => exact Or.inl rfl
    | some f0 =>
      refine Or.inr ⟨f0, rfl, ?_⟩
      by_cases hr : f0.revoked = true
      · exact Or.inl hr
      · refine Or.inr ?_
        by_cases he : f0.expires_at.instant < now
        · exact he
        · exfalso
          rw [validate_some_of now hf (by simpa using hr) he] at h
          exact Option.some_ne_none _ h
  · intro h
    rcases h with hf | ⟨r, hf, hcond⟩
    · unfold validate_refresh_token
      rw [hf]
    · rcases hcond with hr | he
      · exact validate_none_of_revoked now hf hr
      · by_cases hr : r.revoked = true
        · exact validate_none_of_revoked now hf hr
        · unfold validate_refresh_token
          rw [hf]
          dsimp only
          rw [if_neg (by simp [hr])]
          have hinst : ({ r with expires_at := normalize_expires r.expires_at }
              : RefreshToken).expires_at.instant = r.expires_at.instant :=
            normalize_instant r.expires_at
          rw [if_pos (by rw [hinst]; exact he)]

/-- C2: `validate_refresh_token` as implemented rejects a record whose
`expires_at` is strictly before `now` but accepts one whose `expires_at`
equals the current instant: the claimed `expires_at <= now` rejection is
refuted at the boundary. Here a live record expiring exactly at instant 100
is validated at `now = 100` and accepted. -/
theorem c2_boundary_cex :
    sampleDB.tokens.find? (fun r => r.token == "t") = some sampleRec ∧
    sampleRec.revoked = false ∧
    sampleRec.expires_at.instant ≤ 100 ∧
    (validate_refresh_token sampleDB 100 "t").1 = some sampleRec := by
  decide

/-- C2 (amended): validation returns invalid exactly when no record carries
the token string, or the record is revoked, or its `expires_at` is strictly
less than the current time; otherwise it returns the record (with a naive
expiry re-tagged as UTC). A record whose `expires_at` equals the current
instant is still accepted. -/
theorem c2_validate_spec (db : DB) (now : Int) (tok : String) :
    ((validate_refresh_token db now tok).1 = none ↔
      db.tokens.find? (fun x => x.token == tok) = none ∨
      ∃ r, db.tokens.find? (fun x => x.token == tok) = some r ∧
        (r.revoked = true ∨ r.expires_at.instant < now)) ∧
    (∀ r, db.tokens.find? (fun x => x.token == tok) = some r →
      r.revoked = false → ¬(r.expires_at.instant < now) →
      (validate_refresh_token db now tok).1 =
        some { r with expires_at := normalize_expires r.expires_at }) :=
  ⟨validate_none_iff db now tok, fun _ hf hr he => validate_some_of now hf hr he⟩

/-- Witness for C2 (amended): in the sample store, validation at `now = 101`
(strictly past expiry) rejects, and at `now = 100` (expiry boundary) accepts. -/
theorem c2_validate_spec_w :
    (validate_refresh_token sampleDB 101 "t").1 = none ∧
    (validate_refresh_token sampleDB 100 "t").1 =
      some { sampleRec with expires_at := normalize_expires sampleRec.expires_at } :=
  ⟨(c2_validate_spec sampleDB 101 "t").1.mpr
      (Or.inr ⟨sampleRec, by decide, Or.inr (by decide)⟩),
   (c2_validate_spec sampleDB 100 "t").2 sampleRec (by decide) (by decide)
      (by decide)⟩

/-- C7: the expiry normalization performed by `validate_refresh_token` treats
a naive timestamp as UTC (same wall-clock reading, offset 0, so the denoted
instant is the UTC reading of the wall clock, never a local-time reading),
leaves an already-aware timestamp exactly as it was, and is idempotent. -/
theorem c7_normalization (d : Dt) :
    (d.tz = none → normalize_expires d = d.replaceUtc ∧
      (normalize_expires d).wall = d.wall ∧
      (normalize_expires d).tz = some 0 ∧
      (normalize_expires d).instant = d.wall) ∧
    (∀ off, d.tz = some off → normalize_expires d = d) ∧
    normalize_expires (normalize_expires d) = normalize_expires d := by
  refine ⟨fun hn => ?_, fun off ha => ?_, ?_⟩
  · unfold normalize_expires Dt.replaceUtc Dt.instant
    simp [hn]
  · unfold normalize_expires
    simp [ha]
  · unfold normalize_expires Dt.replaceUtc
    cases h : d.tz <;> simp [h]

/-- Witness for C7: a naive timestamp is re-tagged as UTC keeping its wall
reading, and an aware one (offset 3600) is left untouched. -/
theorem c7_normalization_w :
    (normalize_expires ⟨5, none⟩).tz = some 0 ∧
    (normalize_expires ⟨5, none⟩).instant = 5 ∧
    normalize_expires ⟨7, some 3600⟩ = ⟨7, some 3600⟩ :=
  ⟨((c7_normalization ⟨5, none⟩).1 rfl).2.2.1,
   ((c7_normalization ⟨5, none⟩).1 rfl).2.2.2,
   (c7_normalization ⟨7, some 3600⟩).2.1 3600 rfl⟩

/-! Revocation is terminal: machinery for C1. -/

theorem save_id (r0 x : RefreshToken) :
    ((if x.id == r0.id then r0 else x) : RefreshToken).id = x.id := by
  by_cases h : x.id = r0.id <;> simp [h]

theorem save_token_users (db : DB) (r0 : RefreshToken) :
    (db.save_token r0).users = db.users := rfl

theorem save_token_length (db : DB) (r0 : RefreshToken) :
    (db.save_token r0).tokens.length = db.tokens.length :=
  List.length_map _ _

theorem save_token_uniqueIds (db : DB) (r0 : RefreshToken) (hu : db.uniqueIds) :
    (db.save_token r0).uniqueIds := by
  unfold DB.uniqueIds DB.save_token at *
  rw [List.pairwise_map]
  exact hu.imp (by intro a b h; rw [save_id, save_id]; exact h)

theorem save_token_mem_self (db : DB) (r0 : RefreshToken) {f0 : RefreshToken}
    (hf : f0 ∈ db.tokens) (hid : f0.id = r0.id) :
    r0 ∈ (db.save_token r0).tokens := by
  exact List.mem_map.mpr ⟨f0, hf, by simp [hid]⟩

theorem eq_of_mem_uniqueIds {ts : List RefreshToken}
    (hu : ts.Pairwise (fun a b => a.id ≠ b.id))
    {r s : RefreshToken} (hr : r ∈ ts) (hs : s ∈ ts) (h : r.id = s.id) : r = s := by
  by_contra hne
  have hsymm : Symmetric (fun (a b : RefreshToken) => a.id ≠ b.id) :=
    fun a b hab he => hab he.symm
  exact (hu.forall hsymm hr hs hne) h

/-- After a store mutation, every previously revoked record is still present
under its primary key with its revoked flag still set. -/
def preservesRevoked (ts ts2 : List RefreshToken) : Prop :=
  ∀ r, r ∈ ts → r.revoked = true →
    ∃ r2, r2 ∈ ts2 ∧ r2.id = r.id ∧ r2.revoked = true

theorem preservesRevoked_refl (ts : List RefreshToken) : preservesRevoked ts ts :=
  fun r h hr => ⟨r, h, rfl, hr⟩

theorem preservesRevoked_trans {a b c : List RefreshToken}
    (h1 : preservesRevoked a b) (h2 : preservesRevoked b c) :
    preservesRevoked a c := by
  intro r hr hrev
  obtain ⟨r2, hm, hid, hrev2⟩ := h1 r hr hrev
  obtain ⟨r3, hm3, hid3, hrev3⟩ := h2 r2 hm hrev2
  exact ⟨r3, hm3, hid3.trans hid, hrev3⟩

theorem preservesRevoked_append (ts new : List RefreshToken) :
    preservesRevoked ts (ts ++ new) :=
  fun r h hr => ⟨r, List.mem_append_left _ h, rfl, hr⟩

theorem preservesRevoked_save (ts : List RefreshToken) (r0 : RefreshToken)
    (h : ∀ r, r ∈ ts → r.id = r0.id → r.revoked = true → r0.revoked = true) :
    preservesRevoked ts (ts.map (fun x => if x.id == r0.id then r0 else x)) := by
  intro r hr hrev
  by_cases hid : r.id = r0.id
  · refine ⟨r0, ?_, hid.symm, h r hr hid hrev⟩
    have hm := List.mem_map_of_mem (fun x => if x.id == r0.id then r0 else x) hr
    simpa [hid] using hm
  · refine ⟨r, ?_, rfl, hrev⟩
    have hm := List.mem_map_of_mem (fun x => if x.id == r0.id then r0 else x) hr
    simpa [hid] using hm

/-- The store coming out of a validation: unchanged, or the found unrevoked
record saved back with its expiry normalized. -/
theorem validate_db_shape (db : DB) (now : Int) (tok : String) :
    (validate_refresh_token db now tok).2 = db ∨
    ∃ f0, db.tokens.find? (fun x => x.token == tok) = some f0 ∧
      f0.revoked = false ∧
      (validate_refresh_token db now tok).2 =
        db.save_token { f0 with expires_at := normalize_expires f0.expires_at } := by
  unfold validate_refresh_token
  cases hf : db.tokens.find? (fun x => x.token == tok) with
  | none => exact Or.inl rfl
  | some f0 =>
    dsimp only
    by_cases hr : f0.revoked = true
    · rw [if_pos hr]; exact Or.inl rfl
    · rw [if_neg hr]
      refine Or.inr ⟨f0, rfl, by simpa using hr, ?_⟩
      by_cases he : ({ f0 with expires_at := normalize_expires f0.expires_at }
          : RefreshToken).expires_at.instant < now
      · rw [if_pos he]
      · rw [if_neg he]

/-- A save of an unrevoked record (one sharing a primary key with an
unrevoked member) keeps every revoked record revoked, given primary-key
uniqueness. -/
theorem preservesRevoked_save_unrevoked (db : DB) (r0 f0 : RefreshToken)
    (hu : db.uniqueIds) (hmem : f0 ∈ db.tokens) (hid : f0.id = r0.id)
    (hrev : f0.revoked = false) :
    preservesRevoked db.tokens (db.save_token r0).tokens := by
  apply preservesRevoked_save
  intro r hr hridr0 hrrev
  have hre : r = f0 := eq_of_mem_uniqueIds hu hr hmem (hridr0.trans hid.symm)
  rw [hre, hrev] at hrrev
  exact Bool.noConfusion hrrev

theorem validate_preserves (db : DB) (now : Int) (tok : String)
    (hu : db.uniqueIds) :
    preservesRevoked db.tokens (validate_refresh_token db now tok).2.tokens := by
  rcases validate_db_shape db now tok with h | ⟨f0, hf, hrev, h⟩
  · rw [h]; exact preservesRevoked_refl _
  · rw [h]
    exact preservesRevoked_save_unrevoked db _ f0 hu
      (List.mem_of_find?_eq_some hf) rfl hrev

theorem revoke_preserves (db : DB) (now : Int) (r0 : RefreshToken) :
    preservesRevoked db.tokens (revoke_refresh_token db now r0).2.tokens :=
  preservesRevoked_save db.tokens _ (fun _ _ _ _ => rfl)

theorem create_preserves (db : DB) (now : Int) (uid : Nat) (raw : String)
    (nid : Nat) :
    preservesRevoked db.tokens
      (create_refresh_token_record db now uid raw nid).2.tokens :=
  preservesRevoked_append db.tokens _

theorem refresh_preserves (db : DB) (now : Int) (tok : String) {t : Token}
    {db2 : DB} (hu : db.uniqueIds) (h : refresh db now tok = .ok (t, db2)) :
    preservesRevoked db.tokens db2.tokens := by
  unfold refresh at h
  cases hv : validate_refresh_token db now tok with
  | mk res db1 =>
    rw [hv] at h
    cases res with
    | none => exact absurd h (by simp)
    | some record =>
      dsimp only at h
      obtain ⟨f0, hf, hrev, hrec, hexp, hdb1⟩ := validate_eq_some hv
      injection h with hp
      have h2 : db1.save_token { record with last_used_at := some (Dt.utc now) }
          = db2 := congrArg Prod.snd hp
      have step1 : preservesRevoked db.tokens db1.tokens := by
        have hh := validate_preserves db now tok hu
        rw [hv] at hh
        exact hh
      have hmem1 : record ∈ db1.tokens := by
        rw [hdb1, hrec]
        exact save_token_mem_self db _ (List.mem_of_find?_eq_some hf) rfl
      have hu1 : db1.uniqueIds := by
        rw [hdb1]; exact save_token_uniqueIds db _ hu
      have hrev1 : record.revoked = false := by rw [hrec]; exact hrev
      have step2 : preservesRevoked db1.tokens
          (db1.save_token { record with last_used_at := some (Dt.utc now) }).tokens :=
        preservesRevoked_save_unrevoked db1 _ record hu1 hmem1 rfl hrev1
      rw [← h2]
      exact preservesRevoked_trans step1 step2

theorem logout_preserves (db : DB) (now : Int) (tok : String) {db2 : DB}
    (hu : db.uniqueIds) (h : logout db now tok = .ok db2) :
    preservesRevoked db.tokens db2.tokens := by
  unfold logout at h
  cases hv : validate_refresh_token db now tok with
  | mk res db1 =>
    rw [hv] at h
    cases res with
    | none => exact absurd h (by simp)
    | some record =>
      injection h with hp
      have step1 : preservesRevoked db.tokens db1.tokens := by
        have hh := validate_preserves db now tok hu
        rw [hv] at hh
        exact hh
      rw [← hp]
      exact preservesRevoked_trans step1 (revoke_preserves db1 now record)

theorem login_preserves (db : DB) (now : Int) (email password raw : String)
    (nid : Nat) {t : Token} {db2 : DB}
    (h : login db now email password raw nid = .ok (t, db2)) :
    preservesRevoked db.tokens db2.tokens := by
  unfold login at h
  cases ha : authenticate db email password with
  | error e => rw [ha] at h; exact absurd h (by simp)
  | ok ou =>
    rw [ha] at h
    cases ou with
    | none => exact absurd h (by simp)
    | some user =>
      dsimp only at h
      by_cases hact : user.is_active = true
      · rw [if_pos hact] at h
        injection h with hp
        have h2 := congrArg Prod.snd hp
        dsimp only at h2
        rw [← h2]
        exact create_preserves db now user.id raw nid
      · rw [if_neg hact] at h
        exact absurd h (by simp)

/-- After saving a revocation of a member record, the lookup by its token
string finds exactly the revoked version (under the table's uniqueness
invariants). -/
theorem find_map_save (ts : List RefreshToken) (r r0 : RefreshToken)
    (hmem : r ∈ ts)
    (hids : ts.Pairwise (fun a b => a.id ≠ b.id))
    (htoks : ts.Pairwise (fun a b => a.token ≠ b.token))
    (hid : r0.id = r.id) (htok : r0.token = r.token) :
    (ts.map (fun x => if x.id == r0.id then r0 else x)).find?
      (fun x => x.token == r.token) = some r0 := by
  induction ts with
  | nil => cases hmem
  | cons a ts ih =>
    simp only [List.map_cons]
    rcases List.mem_cons.mp hmem with ha | hmemts
    · have haa : a = r := ha.symm
      subst haa
      rw [show (if a.id == r0.id then r0 else a) = r0 by simp [hid]]
      exact List.find?_cons_of_pos _ (by simp [htok])
    · have hida : a.id ≠ r.id := (List.pairwise_cons.mp hids).1 r hmemts
      have htoka : a.token ≠ r.token := (List.pairwise_cons.mp htoks).1 r hmemts
      rw [show (if a.id == r0.id then r0 else a) = a by simp [hid, hida]]
      rw [List.find?_cons_of_neg _ (by simp [htoka])]
      exact ih hmemts (List.pairwise_cons.mp hids).2 (List.pairwise_cons.mp htoks).2

/-- C1: revocation is terminal. (i) A revoked record always fails
validation, at every current time, in particular before its expiry.
(ii) Right after `revoke_refresh_token` on a stored record, validating its
token string returns invalid at every later (or earlier) time. (iii)-(viii)
No store operation — validate, issue, revoke, refresh, logout, login — ever
clears the revoked flag of a stored record: any revoked record survives each
operation under its primary key with revoked still true. -/
theorem c1_revocation_terminal :
    (∀ (db : DB) (now : Int) (tok : String) (r : RefreshToken),
      db.tokens.find? (fun x => x.token == tok) = some r → r.revoked = true →
      (validate_refresh_token db now tok).1 = none) ∧
    (∀ (db : DB) (r : RefreshToken) (now now2 : Int),
      r ∈ db.tokens → db.uniqueIds → db.uniqueTokens →
      (validate_refresh_token (revoke_refresh_token db now r).2 now2 r.token).1
        = none) ∧
    (∀ (db : DB) (now : Int) (tok : String), db.uniqueIds →
      preservesRevoked db.tokens (validate_refresh_token db now tok).2.tokens) ∧
    (∀ (db : DB) (now : Int) (uid nid : Nat) (raw : String),
      preservesRevoked db.tokens
        (create_refresh_token_record db now uid raw nid).2.tokens) ∧
    (∀ (db : DB) (now : Int) (r0 : RefreshToken),
      preservesRevoked db.tokens (revoke_refresh_token db now r0).2.tokens) ∧
    (∀ (db : DB) (now : Int) (tok : String) (t : Token) (db2 : DB),
      db.uniqueIds → refresh db now tok = .ok (t, db2) →
      preservesRevoked db.tokens db2.tokens) ∧
    (∀ (db : DB) (now : Int) (tok : String) (db2 : DB),
      db.uniqueIds → logout db now tok = .ok db2 →
      preservesRevoked db.tokens db2.tokens) ∧
    (∀ (db : DB) (now : Int) (email password raw : String) (nid : Nat)
      (t : Token) (db2 : DB),
      login db now email password raw nid = .ok (t, db2) →
      preservesRevoked db.tokens db2.tokens) := by
  refine ⟨?_, ?_, ?_, ?_, ?_, ?_, ?_, ?_⟩
  · intro db now tok r hf hr
    exact validate_none_of_revoked now hf hr
  · intro db r now now2 hmem hids htoks
    exact validate_none_of_revoked now2
      (find_map_save db.tokens r _ hmem hids htoks rfl rfl) rfl
  · intro db now tok hu
    exact validate_preserves db now tok hu
  · intro db now uid nid raw
    exact create_preserves db now uid raw nid
  · intro db now r0
    exact revoke_preserves db now r0
  · intro db now tok t db2 hu h
    exact refresh_preserves db now tok hu h
  · intro db now tok db2 hu h
    exact logout_preserves db now tok hu h
  · intro db now email password raw nid t db2 h
    exact login_preserves db now email password raw nid h

/-- Witness for C1: revoking the sample record at time 0 makes validation of
its token string fail at time 50, well before its expiry at 100. -/
theorem c1_revocation_terminal_w :
    (validate_refresh_token (revoke_refresh_token sampleDB 0 sampleRec).2
      50 "t").1 = none :=
  c1_revocation_terminal.2.1 sampleDB sampleRec 0 50 (by decide)
    (by unfold DB.uniqueIds; decide) (by unfold DB.uniqueTokens; decide)

/-- C3: whenever validation accepts a refresh token string, `refresh`
succeeds and (1) saves the validated record with `last_used_at` set to the
current time, (2) issues a new access token whose subject is the record's
user id, and (3) returns it paired with the very token string that was
passed in; no refresh-token record is created (the table keeps its length). -/
theorem c3_refresh_success (db : DB) (now : Int) (tok : String)
    (h : (validate_refresh_token db now tok).1.isSome = true) :
    ∃ record t db2,
      (validate_refresh_token db now tok).1 = some record ∧
      refresh db now tok = Except.ok (t, db2) ∧
      t.access_token = create_access_token record.user_id now ∧
      t.access_token.sub = record.user_id ∧
      t.refresh_token = tok ∧
      db2 = (validate_refresh_token db now tok).2.save_token
        { record with last_used_at := some (Dt.utc now) } ∧
      (∃ r2, r2 ∈ db2.tokens ∧ r2.id = record.id ∧
        r2.last_used_at = some (Dt.utc now)) ∧
      db2.tokens.length = db.tokens.length := by
  cases hv : validate_refresh_token db now tok with
  | mk res db1 =>
    cases res with
    | none => rw [hv] at h; simp at h
    | some record =>
      obtain ⟨f0, hf, hrev, hrec, hexp, hdb1⟩ := validate_eq_some hv
      have htok : record.token = tok := validate_some_token hv
      have hmem1 : record ∈ db1.tokens := by
        rw [hdb1, hrec]
        exact save_token_mem_self db _ (List.mem_of_find?_eq_some hf) rfl
      refine ⟨record,
        { access_token := create_access_token record.user_id now,
          refresh_token := record.token },
        db1.save_token { record with last_used_at := some (Dt.utc now) },
        rfl, ?_, rfl, rfl, htok, rfl, ?_, ?_⟩
      · unfold refresh
        rw [hv]
      · exact ⟨{ record with last_used_at := some (Dt.utc now) },
          save_token_mem_self db1 _ hmem1 rfl, rfl, rfl⟩
      · rw [save_token_length, hdb1, save_token_length]

/-- Witness for C3: refreshing the sample store's live token at time 5. -/
theorem c3_refresh_success_w :
    ∃ record t db2,
      (validate_refresh_token sampleDB 5 "t").1 = some record ∧
      refresh sampleDB 5 "t" = Except.ok (t, db2) ∧
      t.access_token = create_access_token record.user_id 5 ∧
      t.access_token.sub = record.user_id ∧
      t.refresh_token = "t" ∧
      db2 = (validate_refresh_token sampleDB 5 "t").2.save_token
        { record with last_used_at := some (Dt.utc 5) } ∧
      (∃ r2, r2 ∈ db2.tokens ∧ r2.id = record.id ∧
        r2.last_used_at = some (Dt.utc 5)) ∧
      db2.tokens.length = sampleDB.tokens.length :=
  c3_refresh_success sampleDB 5 "t" (by decide)

/-- C10: a successful `refresh` replaces exactly the record found under the
token string, changing only its `last_used_at` (set to the current instant)
and, for a naive stored expiry, the timezone tag of `expires_at`; its token
string, user id, primary key, creation time, revoked flag, revocation time
and the instant denoted by `expires_at` are unchanged; every other record is
untouched, no record is created or deleted, and the user table is
untouched. -/
theorem c10_refresh_frame (db : DB) (now : Int) (tok : String) (t : Token)
    (db2 : DB) (h : refresh db now tok = .ok (t, db2)) :
    ∃ r, db.tokens.find? (fun x => x.token == tok) = some r ∧
      db2.tokens = db.tokens.map (fun x => if x.id == r.id then
        { r with expires_at := normalize_expires r.expires_at,
                 last_used_at := some (Dt.utc now) } else x) ∧
      db2.tokens.length = db.tokens.length ∧
      db2.users = db.users ∧
      (∀ x, x ∈ db.tokens → x.id ≠ r.id → x ∈ db2.tokens) ∧
      (let r2 : RefreshToken :=
        { r with expires_at := normalize_expires r.expires_at,
                 last_used_at := some (Dt.utc now) }
       r2.token = r.token ∧ r2.user_id = r.user_id ∧ r2.id = r.id ∧
       r2.created_at = r.created_at ∧ r2.revoked = r.revoked ∧
       r2.revoked_at = r.revoked_at ∧
       r2.expires_at.instant = r.expires_at.instant ∧
       (r.expires_at.tz.isSome = true → r2.expires_at = r.expires_at)) := by
  unfold refresh at h
  cases hv : validate_refresh_token db now tok with
  | mk res db1 =>
    rw [hv] at h
    cases res with
    | none => exact absurd h (by simp)
    | some record =>
      dsimp only at h
      injection h with hp
      have h2 : db1.save_token { record with last_used_at := some (Dt.utc now) }
          = db2 := congrArg Prod.snd hp
      obtain ⟨f0, hf, hrev, hrec, hexp, hdb1⟩ := validate_eq_some hv
      subst hrec
      have htokens : db2.tokens = db.tokens.map (fun x => if x.id == f0.id then
          { f0 with expires_at := normalize_expires f0.expires_at,
                    last_used_at := some (Dt.utc now) } else x) := by
        rw [← h2, hdb1]
        unfold DB.save_token
        dsimp only
        rw [List.map_map]
        apply List.map_congr_left
        intro x _
        by_cases hxid : x.id = f0.id <;> simp [hxid]
      refine ⟨f0, hf, htokens, ?_, ?_, ?_,
        rfl, rfl, rfl, rfl, rfl, rfl, normalize_instant f0.expires_at, ?_⟩
      · rw [htokens, List.length_map]
      · rw [← h2, save_token_users, hdb1, save_token_users]
      · intro x hx hne
        rw [htokens]
        exact List.mem_map.mpr ⟨x, hx, by simp [hne]⟩
      · intro hiso
        rcases Option.isSome_iff_exists.mp hiso with ⟨o, ho⟩
        unfold normalize_expires
        simp [ho]

/-- The sample record after a refresh at time 5: only `last_used_at` filled. -/
def sampleRecUsed : RefreshToken :=
  { id := 1, user_id := 7, token := "t", created_at := Dt.utc 0,
    expires_at := Dt.utc 100, last_used_at := some (Dt.utc 5),
    revoked := false, revoked_at := none }

/-- Witness for C10: the frame condition at the sample store, where
refreshing at time 5 only fills in `last_used_at`. -/
theorem c10_refresh_frame_w :
    ∃ r, sampleDB.tokens.find? (fun x => x.token == "t") = some r ∧
      (DB.mk [] [sampleRecUsed]).tokens
        = sampleDB.tokens.map (fun x => if x.id == r.id then
          { r with expires_at := normalize_expires r.expires_at,
                   last_used_at := some (Dt.utc 5) } else x) ∧
      (DB.mk [] [sampleRecUsed]).tokens.length
        = sampleDB.tokens.length ∧
      (DB.mk [] [sampleRecUsed]).users
        = sampleDB.users ∧
      (∀ x, x ∈ sampleDB.tokens → x.id ≠ r.id →
        x ∈ (DB.mk [] [sampleRecUsed]).tokens) ∧
      (let r2 : RefreshToken :=
        { r with expires_at := normalize_expires r.expires_at,
                 last_used_at := some (Dt.utc 5) }
       r2.token = r.token ∧ r2.user_id = r.user_id ∧ r2.id = r.id ∧
       r2.created_at = r.created_at ∧ r2.revoked = r.revoked ∧
       r2.revoked_at = r.revoked_at ∧
       r2.expires_at.instant = r.expires_at.instant ∧
       (r.expires_at.tz.isSome = true → r2.expires_at = r.expires_at)) :=
  c10_refresh_frame sampleDB 5 "t"
    { access_token := { sub := 7, exp := 1805 }, refresh_token := "t" }
    (DB.mk [] [sampleRecUsed])
    (by decide)

/-- The only exception the credential check itself can raise is pwdlib's
`UnknownHashError`. -/
theorem verify_password_error {p h : String} {e : Err}
    (hv : verify_password p h = .error e) : e = Err.unknownHashError := by
  unfold verify_password pwdlib_verify at hv
  split at hv
  · exact absurd hv (by simp)
  · injection hv with he
    exact he.symm

/-- Elimination form of a successful authentication. -/
theorem authenticate_ok_some {db : DB} {email password : String} {user : User}
    (ha : authenticate db email password = .ok (some user)) :
    get_user_by_email db email = some user ∧
    verify_password password user.hashed_password = .ok true := by
  unfold authenticate at ha
  cases hu : get_user_by_email db email with
  | none => rw [hu] at ha; exact absurd ha (by simp)
  | some u2 =>
    rw [hu] at ha
    dsimp only at ha
    cases hv : verify_password password u2.hashed_password with
    | error e2 => rw [hv] at ha; exact absurd ha (by simp)
    | ok b =>
      rw [hv] at ha
      cases b with
      | false => exact absurd ha (by simp)
      | true =>
        have h2 : u2 = user := by
          injection ha with hh
          exact Option.some.inj hh
        subst h2
        exact ⟨rfl, hv⟩

/-- Introduction form of a successful authentication. -/
theorem authenticate_eq_of {db : DB} {email password : String} {user : User}
    (hu : get_user_by_email db email = some user)
    (hv : verify_password password user.hashed_password = .ok true) :
    authenticate db email password = .ok (some user) := by
  unfold authenticate
  rw [hu]
  dsimp only
  rw [hv]

/-- An exception escaping `authenticate` is pwdlib's `UnknownHashError`. -/
theorem authenticate_error_unknown {db : DB} {email password : String} {e : Err}
    (ha : authenticate db email password = .error e) :
    e = Err.unknownHashError := by
  unfold authenticate at ha
  cases hu : get_user_by_email db email with
  | none => rw [hu] at ha; exact absurd ha (by simp)
  | some u =>
    rw [hu] at ha
    dsimp only at ha
    cases hv : verify_password password u.hashed_password with
    | error e2 =>
      rw [hv] at ha
      injection ha with hh
      exact hh ▸ verify_password_error hv
    | ok b =>
      rw [hv] at ha
      cases b <;> exact absurd ha (by simp)

/-- C4: a login with an unknown email and a login with a known email but a
failing password both end in the very same `HTTPException(400, "Incorrect
email or password")`, so the two failures are indistinguishable by the
returned error value. -/
theorem c4_login_error_indistinguishable (db : DB) (now : Int)
    (email1 password1 email2 password2 raw : String) (nid : Nat)
    (h1 : get_user_by_email db email1 = none)
    (h2 : ∃ u, get_user_by_email db email2 = some u ∧
      verify_password password2 u.hashed_password = .ok false) :
    login db now email1 password1 raw nid
      = .error (.httpException 400 "Incorrect email or password") ∧
    login db now email2 password2 raw nid
      = .error (.httpException 400 "Incorrect email or password") ∧
    login db now email1 password1 raw nid
      = login db now email2 password2 raw nid := by
  obtain ⟨u, hu, hv⟩ := h2
  have l1 : login db now email1 password1 raw nid
      = .error (.httpException 400 "Incorrect email or password") := by
    unfold login authenticate
    rw [h1]
  have l2 : login db now email2 password2 raw nid
      = .error (.httpException 400 "Incorrect email or password") := by
    unfold login authenticate
    rw [hu]
    dsimp only
    rw [hv]
  exact ⟨l1, l2, l1.trans l2.symm⟩

/-- A user with a properly hashed password, for witnesses. -/
def sampleUser : User :=
  { id := 1, email := "a@x", hashed_password := get_password_hash "pw12345678",
    is_active := true, is_superuser := false }

/-- A store holding only `sampleUser`. -/
def sampleUserDB : DB := { users := [sampleUser], tokens := [] }

/-- Witness for C4: unknown email `b@x` and known email `a@x` with a wrong
password produce the identical error value. -/
theorem c4_login_error_indistinguishable_w :
    login sampleUserDB 0 "b@x" "whatever" "raw" 1
      = .error (.httpException 400 "Incorrect email or password") ∧
    login sampleUserDB 0 "a@x" "wrongpass" "raw" 1
      = .error (.httpException 400 "Incorrect email or password") ∧
    login sampleUserDB 0 "b@x" "whatever" "raw" 1
      = login sampleUserDB 0 "a@x" "wrongpass" "raw" 1 :=
  c4_login_error_indistinguishable sampleUserDB 0 "b@x" "whatever" "a@x"
    "wrongpass" "raw" 1 (by decide) ⟨sampleUser, by decide, by decide⟩

/-- C9: login ends in `HTTPException(400, "Inactive user")` exactly when the
email belongs to a stored user whose password verifies and whose active flag
is false; an inactive user with a failing password gets the generic
`Incorrect email or password` error instead, because the activity check runs
only after the credential check. -/
theorem c9_inactive_after_credentials (db : DB) (now : Int)
    (email password raw : String) (nid : Nat) :
    (login db now email password raw nid
        = .error (.httpException 400 "Inactive user") ↔
      ∃ u, get_user_by_email db email = some u ∧
        verify_password password u.hashed_password = .ok true ∧
        u.is_active = false) ∧
    (∀ u, get_user_by_email db email = some u → u.is_active = false →
      verify_password password u.hashed_password = .ok false →
      login db now email password raw nid
        = .error (.httpException 400 "Incorrect email or password")) := by
  constructor
  · constructor
    · intro h
      unfold login at h
      cases ha : authenticate db email password with
      | error e =>
        rw [ha] at h
        injection h with he
        exact absurd ((authenticate_error_unknown ha).symm.trans he) (by simp)
      | ok ou =>
        rw [ha] at h
        cases ou with
        | none =>
          dsimp only at h
          exact absurd h (by decide)
        | some user =>
          dsimp only at h
          by_cases hact : user.is_active = true
          · rw [if_pos hact] at h
            exact absurd h (by simp)
          · obtain ⟨hu, hv⟩ := authenticate_ok_some ha
            exact ⟨user, hu, hv, by simpa using hact⟩
    · rintro ⟨u, hu, hv, hinact⟩
      unfold login
      rw [authenticate_eq_of hu hv]
      dsimp only
      rw [if_neg (by simp [hinact])]
  · intro u hu hinact hv
    unfold login authenticate
    rw [hu]
    dsimp only
    rw [hv]

/-- An inactive user with a properly hashed password, for witnesses. -/
def inactiveUser : User :=
  { id := 2, email := "i@x", hashed_password := get_password_hash "pw12345678",
    is_active := false, is_superuser := false }

/-- A store holding only `inactiveUser`. -/
def inactiveDB : DB := { users := [inactiveUser], tokens := [] }

/-- Witness for C9: the inactive user gets `Inactive user` with the right
password and `Incorrect email or password` with a wrong one. -/
theorem c9_inactive_after_credentials_w :
    login inactiveDB 0 "i@x" "pw12345678" "raw" 1
      = .error (.httpException 400 "Inactive user") ∧
    login inactiveDB 0 "i@x" "wrongpass" "raw" 1
      = .error (.httpException 400 "Incorrect email or password") :=
  ⟨(c9_inactive_after_credentials inactiveDB 0 "i@x" "pw12345678" "raw" 1).1.mpr
      ⟨inactiveUser, by decide, by decide, rfl⟩,
   (c9_inactive_after_credentials inactiveDB 0 "i@x" "wrongpass" "raw" 1).2
      inactiveUser (by decide) rfl (by decide)⟩

/-! Password-hash round trip and pwdlib dispatch lemmas. -/

theorem identify_hash (p : String) :
    argon2_identify (get_password_hash p) = true := by
  unfold argon2_identify get_password_hash
  have hlen : 7 ≤ "$argon2id$".data.length := by decide
  rw [String.data_append, List.take_append_of_le_length hlen]
  decide

theorem verify_password_identified {plain hashed : String}
    (h : argon2_identify hashed = true) :
    verify_password plain hashed = .ok (hashed == get_password_hash plain) := by
  unfold verify_password pwdlib_verify
  rw [if_pos h]

theorem verify_password_not_identified {plain hashed : String}
    (h : argon2_identify hashed = false) :
    verify_password plain hashed = .error Err.unknownHashError := by
  unfold verify_password pwdlib_verify
  rw [if_neg (by simp [h])]

theorem verify_password_hash_self (p : String) :
    verify_password p (get_password_hash p) = .ok true := by
  rw [verify_password_identified (identify_hash p)]
  simp

/-- Elimination form of a successful signup. -/
theorem signup_ok_elim {db : DB} {payload : SignupRequest} {uid : Nat}
    {u : User} {db1 : DB}
    (h : signup db payload uid = .ok (u, db1)) :
    get_user_by_email db payload.email = none ∧
    u = { id := uid, email := payload.email,
          hashed_password := get_password_hash payload.password,
          is_active := true, is_superuser := false } ∧
    db1 = { db with users := db.users ++ [u] } := by
  unfold signup user_service_create at h
  cases hu : get_user_by_email db payload.email with
  | some x => rw [hu] at h; exact absurd h (by simp)
  | none =>
    rw [hu] at h
    dsimp only at h
    injection h with hp
    have h1 := congrArg Prod.fst hp
    have h2 := congrArg Prod.snd hp
    dsimp only at h1 h2
    refine ⟨rfl, h1.symm, ?_⟩
    rw [← h1]
    exact h2.symm

theorem find?_singleton_of_pos {α : Type} (p : α → Bool) (a : α)
    (h : p a = true) : List.find? p [a] = some a :=
  List.find?_cons_of_pos _ h

/-- C5: after a successful signup, logging in with the very same email and
password succeeds, hands back the freshly issued refresh-token string, and an
immediate validation of that string accepts it (the raw token string drawn
for the new record is assumed not to collide with a stored one, which the
unique index on `token` enforces). -/
theorem c5_signup_then_login_validate (db : DB) (now : Int)
    (payload : SignupRequest) (uid tid : Nat) (raw : String)
    (u : User) (db1 : DB)
    (hsign : signup db payload uid = .ok (u, db1))
    (hfresh : ∀ r ∈ db.tokens, r.token ≠ raw) :
    ∃ t db2, login db1 now payload.email payload.password raw tid
        = .ok (t, db2) ∧
      t.refresh_token = raw ∧
      (validate_refresh_token db2 now t.refresh_token).1.isSome = true := by
  obtain ⟨hnone, hu, hdb1⟩ := signup_ok_elim hsign
  have hfind : get_user_by_email db1 payload.email = some u := by
    rw [hdb1]
    unfold get_user_by_email at hnone ⊢
    dsimp only
    have hp : (fun (x : User) => x.email == payload.email) u = true := by
      rw [hu]
      exact beq_self_eq_true payload.email
    rw [List.find?_append, hnone,
      find?_singleton_of_pos (fun (x : User) => x.email == payload.email) u hp]
    rfl
  have hverify : verify_password payload.password u.hashed_password
      = .ok true := by
    rw [hu]
    exact verify_password_hash_self payload.password
  have hactive : u.is_active = true := by rw [hu]
  have hauth := authenticate_eq_of hfind hverify
  unfold login
  rw [hauth]
  dsimp only
  rw [if_pos hactive]
  refine ⟨_, _, rfl, rfl, ?_⟩
  have hall : db1.tokens.find? (fun x => x.token == raw) = none := by
    apply List.find?_eq_none.mpr
    intro x hx
    have hxdb : x ∈ db.tokens := by
      rw [hdb1] at hx
      exact hx
    simpa using hfresh x hxdb
  have hp2 : (fun (x : RefreshToken) => x.token == raw)
      (create_refresh_token_record db1 now u.id raw tid).1 = true :=
    beq_self_eq_true raw
  have hfindtok : ((create_refresh_token_record db1 now u.id raw tid).2).tokens.find?
      (fun x => x.token == raw)
      = some (create_refresh_token_record db1 now u.id raw tid).1 := by
    show (db1.tokens ++ [(create_refresh_token_record db1 now u.id raw tid).1]).find?
      (fun x => x.token == raw)
      = some (create_refresh_token_record db1 now u.id raw tid).1
    rw [List.find?_append, hall,
      find?_singleton_of_pos (fun (x : RefreshToken) => x.token == raw)
        (create_refresh_token_record db1 now u.id raw tid).1 hp2]
    rfl
  have hexp : ¬(((create_refresh_token_record db1 now u.id raw tid).1).expires_at.instant
      < now) := by
    show ¬((Dt.utc (now + settings.REFRESH_TOKEN_EXPIRE_DAYS * 86400)).instant < now)
    unfold Dt.instant Dt.utc settings
    simp
  have hv := validate_some_of now hfindtok rfl hexp
  show (validate_refresh_token (create_refresh_token_record db1 now u.id raw tid).2
    now raw).1.isSome = true
  rw [hv]
  rfl

/-- Witness for C5: signup then login then validate on an empty store. -/
theorem c5_signup_then_login_validate_w :
    ∃ t db2, login (DB.mk [User.mk 1 "a@x" (get_password_hash "password1")
          true false] []) 50 "a@x" "password1" "rt" 4
        = .ok (t, db2) ∧
      t.refresh_token = "rt" ∧
      (validate_refresh_token db2 50 t.refresh_token).1.isSome = true :=
  c5_signup_then_login_validate (DB.mk [] []) 50
    (SignupRequest.mk "a@x" "password1") 1 4 "rt"
    (User.mk 1 "a@x" (get_password_hash "password1") true false)
    (DB.mk [User.mk 1 "a@x" (get_password_hash "password1") true false] [])
    (by decide) (by intro r hr; cases hr)

/-! Revocation idempotence up to the restamped `revoked_at` (C6). -/

theorem save_token_idem (db : DB) (r : RefreshToken) :
    (db.save_token r).save_token r = db.save_token r := by
  unfold DB.save_token
  dsimp only
  rw [List.map_map]
  apply congrArg
  apply List.map_congr_left
  intro x _
  by_cases h : x.id = r.id <;> simp [h]

/-- C6 counterexample: revoking the sample record at time 0 and again at
time 1 does not leave the store (nor the record's `revoked_at`) in the state
a single revocation produced: `revoked_at` is restamped to the second call's
time. -/
theorem c6_revoke_twice_cex :
    ((revoke_refresh_token (revoke_refresh_token sampleDB 0 sampleRec).2 1
        (revoke_refresh_token sampleDB 0 sampleRec).1).2
      ≠ (revoke_refresh_token sampleDB 0 sampleRec).2) ∧
    ((revoke_refresh_token (revoke_refresh_token sampleDB 0 sampleRec).2 1
        (revoke_refresh_token sampleDB 0 sampleRec).1).1.revoked_at
      ≠ (revoke_refresh_token sampleDB 0 sampleRec).1.revoked_at) := by
  decide

/-- C6 (amended): revoking an already-revoked record is a no-op success in
every field except `revoked_at`, which is restamped with the second call's
current time: the record stays revoked, the double-revoke state equals the
single-revoke state with `revoked_at` replaced, and when the two calls carry
the same current time the states are exactly equal. -/
theorem c6_revoke_idempotent_amended (db : DB) (t1 t2 : Int)
    (r : RefreshToken) :
    (revoke_refresh_token (revoke_refresh_token db t1 r).2 t2
        (revoke_refresh_token db t1 r).1).1.revoked = true ∧
    (revoke_refresh_token (revoke_refresh_token db t1 r).2 t2
        (revoke_refresh_token db t1 r).1).1
      = { (revoke_refresh_token db t1 r).1 with
          revoked_at := some (Dt.utc t2) } ∧
    (t1 = t2 →
      revoke_refresh_token (revoke_refresh_token db t1 r).2 t2
          (revoke_refresh_token db t1 r).1
        = revoke_refresh_token db t1 r) := by
  refine ⟨rfl, rfl, ?_⟩
  intro h
  subst h
  unfold revoke_refresh_token
  dsimp only
  refine Prod.ext rfl ?_
  exact save_token_idem db _

/-- Witness for C6 (amended): two revocations at the same instant coincide
with one. -/
theorem c6_revoke_idempotent_amended_w :
    revoke_refresh_token (revoke_refresh_token sampleDB 3 sampleRec).2 3
        (revoke_refresh_token sampleDB 3 sampleRec).1
      = revoke_refresh_token sampleDB 3 sampleRec :=
  (c6_revoke_idempotent_amended sampleDB 3 3 sampleRec).2.2 rfl

/-- C8 counterexample: on a malformed hash string the credential verifier
raises pwdlib's `UnknownHashError` instead of returning a non-match
boolean. -/
theorem c8_malformed_hash_cex :
    verify_password "pw" "not-a-hash" = .error Err.unknownHashError ∧
    ∀ b : Bool, verify_password "pw" "not-a-hash" ≠ .ok b := by
  decide

/-- C8 (amended): `verify_password` returns a boolean (and cannot raise) for
every hash the argon2 hasher identifies by its `$argon2` format tag; for any
other (malformed) hash string it raises `UnknownHashError`, and
`authenticate` does not catch it, so the exception escapes into the caller's
flow. -/
theorem c8_verify_fail_open (plain hashed : String) :
    (argon2_identify hashed = true →
      verify_password plain hashed = .ok (hashed == get_password_hash plain)) ∧
    (argon2_identify hashed = false →
      verify_password plain hashed = .error Err.unknownHashError) ∧
    (∀ db email, (∃ u, get_user_by_email db email = some u ∧
        argon2_identify u.hashed_password = false) →
      authenticate db email plain = .error Err.unknownHashError) := by
  refine ⟨fun h => verify_password_identified h,
    fun h => verify_password_not_identified h, ?_⟩
  rintro db email ⟨u, hu, hbad⟩
  unfold authenticate
  rw [hu]
  dsimp only
  rw [verify_password_not_identified hbad]

/-- Witness for C8 (amended): a well-formed hash verifies to a boolean, a
malformed one raises. -/
theorem c8_verify_fail_open_w :
    verify_password "pw" (get_password_hash "pw") = .ok true ∧
    verify_password "pw" "zzz" = .error Err.unknownHashError :=
  ⟨by
    have h := (c8_verify_fail_open "pw" (get_password_hash "pw")).1 (by decide)
    simpa using h,
   (c8_verify_fail_open "pw" "zzz").2.1 (by decide)⟩

end WalletApi
